import Mathlib

/-!
Shallow embedding of the interactive behaviors implemented by
src/js/script.js: the mobile menu controller, the smooth-scroll controller,
the lazy-image controller, the form-validation controller and the
scroll-reactive header controller.  Stateful DOM handlers are modelled as
explicit state-passing functions over small record types; browser callback
scheduling (animation frames, intersection entries) is modelled by explicit
event traces.  The theorems below settle the behavioral claims about the
script.
-/

namespace Portfolio

/-- Whitespace characters of the JavaScript character class backslash-s,
which is also the set trimmed by String.prototype.trim (ASCII whitespace,
the Unicode space separators, line/paragraph separators and the BOM). -/
def isJsWs (c : Char) : Bool :=
  c == ' ' || c == '\t' || c == '\n' || c == '\r' || c == '\x0b' || c == '\x0c' ||
  c == '\u00A0' || c == '\u1680' || (decide ('\u2000' ≤ c) && decide (c ≤ '\u200A')) ||
  c == '\u2028' || c == '\u2029' || c == '\u202F' || c == '\u205F' || c == '\u3000' ||
  c == '\uFEFF'

/-- Character-list version of JavaScript String.prototype.trim: drop
whitespace from both ends. -/
def trimChars (cs : List Char) : List Char :=
  ((cs.dropWhile isJsWs).reverse.dropWhile isJsWs).reverse

/-- The value.trim() call at the top of validateField. -/
def jsTrim (s : String) : String :=
  String.mk (trimChars s.toList)

/-- Size of one character in UTF-16 code units, the unit JavaScript strings
are measured in: characters above U+FFFF occupy a surrogate pair of two
units. -/
def utf16Size (c : Char) : Nat :=
  if c.toNat < 65536 then 1 else 2

/-- The JavaScript value.length of a string: its number of UTF-16 code
units. -/
def utf16Length (s : String) : Nat :=
  (s.toList.map utf16Size).sum

/-- A character admitted by the regexp class [^\s@]: neither whitespace nor
an at-sign. -/
def okChar (c : Char) : Bool :=
  !isJsWs c && decide (c ≠ '@')

/-- Split a character list at its first at-sign, returning the part before
and the part after it; none when no at-sign occurs.  This is how the anchored
regexp ^[^\s@]+@...$ partitions its subject, since the local part cannot
contain an at-sign. -/
def splitAtSign : List Char → Option (List Char × List Char)
  | [] => none
  | c :: rest =>
    if c = '@' then some ([], rest)
    else (splitAtSign rest).map (fun p => (c :: p.1, p.2))

/-- True when the list contains a dot that is not its last element. -/
def dotNotLast : List Char → Bool
  | [] => false
  | c :: cs => (decide (c = '.') && !cs.isEmpty) || dotNotLast cs

/-- True when the list contains a dot that is neither first nor last: the
shape the domain part must have to match [^\s@]+\.[^\s@]+ once all its
characters are known to be in [^\s@]. -/
def dotInterior : List Char → Bool
  | [] => false
  | _ :: cs => dotNotLast cs

/-- The test value of the email regexp /^[^\s@]+@[^\s@]+\.[^\s@]+$/ on a
character list: a nonempty whitespace-free part before the single at-sign,
and after it a string of [^\s@] characters containing an interior dot. -/
def emailValidChars (cs : List Char) : Bool :=
  match splitAtSign cs with
  | none => false
  | some (l, d) =>
    !l.isEmpty && l.all (fun c => !isJsWs c) && d.all okChar && dotInterior d

/-- The email regexp test applied to a string, as in the email branch of
validateField. -/
def emailValid (s : String) : Bool :=
  emailValidChars s.toList

/-- The shape the specification ascribes to a valid email value: a nonempty
whitespace-free local part, exactly one at-sign, and a dot-separated domain
(two nonempty runs of non-whitespace non-at-sign characters around a dot).
Stated from the specification wording, to be compared with the regexp of the
source. -/
def specEmailShape (s : String) : Prop :=
  ∃ l d1 d2 : List Char,
    s.toList = l ++ '@' :: (d1 ++ '.' :: d2) ∧
    l ≠ [] ∧ l.all okChar = true ∧
    d1 ≠ [] ∧ d1.all okChar = true ∧
    d2 ≠ [] ∧ d2.all okChar = true

/-- A form field as validateField sees it: its current value, its type
attribute, and the optional data-min-length attribute (dataset.minLength),
plus the name attribute used by FormData serialization. -/
structure FieldData where
  name : String
  value : String
  fieldType : String
  minLengthAttr : Option Nat
  deriving DecidableEq, Repr

/-- The effective minimum length: field.dataset.minLength with default 0
when the attribute is absent. -/
def effMinLength (f : FieldData) : Nat :=
  f.minLengthAttr.getD 0

/-- The validation rules of validateField: the switch on field.type.  For an
email field the trimmed value is tested against the email regexp; otherwise
the trimmed value's length — value.length, a count of UTF-16 code units — is
compared with the effective minimum.  Returns the validity flag together
with the error message computed by the same branch. -/
def validateRule (f : FieldData) : Bool × String :=
  let value := jsTrim f.value
  if f.fieldType = "email" then
    (emailValid value, "Please enter a valid email")
  else
    (decide (effMinLength f ≤ utf16Length value),
     "Minimum " ++ toString (effMinLength f) ++ " characters required")

/-- The validity bit of validateField alone, as consumed by the submit
handler. -/
def fieldValid (f : FieldData) : Bool :=
  (validateRule f).1

/-- A sibling of the field inside its parent element: either a rendered
span.error-message or some other node. -/
inductive SiblingNode where
  | errSpan (text : String)
  | otherNode (id : Nat)
  deriving DecidableEq, Repr

/-- The field together with its surroundings in the DOM: the error class on
the field itself and the lists of siblings before and after it inside
field.parentElement. -/
structure FieldContext where
  field : FieldData
  hasErrorClass : Bool
  before : List SiblingNode
  after : List SiblingNode
  deriving DecidableEq, Repr

/-- Remove the first span.error-message from a sibling list, as
parentElement.querySelector followed by remove() does; the flag reports
whether one was found. -/
def removeFirstErr : List SiblingNode → List SiblingNode × Bool
  | [] => ([], false)
  | SiblingNode.errSpan _ :: rest => (rest, true)
  | SiblingNode.otherNode i :: rest =>
    let r := removeFirstErr rest
    (SiblingNode.otherNode i :: r.1, r.2)

/-- The full validateField function with its DOM effects: clear the error
class, remove the first existing error-message element of the parent, apply
the validation rules, and on failure set the error class and append a fresh
span.error-message holding the message via parentElement.appendChild, i.e.
as the new last child of the parent.  Returns the updated context and the
validity flag. -/
def validateFieldDOM (ctx : FieldContext) : FieldContext × Bool :=
  let b := removeFirstErr ctx.before
  let a := if b.2 then ctx.after else (removeFirstErr ctx.after).1
  let r := validateRule ctx.field
  if r.1 then
    ({ ctx with hasErrorClass := false, before := b.1, after := a }, true)
  else
    ({ ctx with hasErrorClass := true, before := b.1,
                after := a ++ [SiblingNode.errSpan r.2] }, false)

/-- Observable outcome of one run of the submit handler: the validation
result computed for each field in order (the forEach loop evaluates
validateField on every field, never short-circuiting), the number of times
the external submitForm collaborator was invoked, and the argument it
received when it was. -/
structure SubmitOutcome where
  validated : List Bool
  submitCalls : Nat
  submitArg : Option (List (String × String))
  deriving DecidableEq, Repr

/-- The submit handler of setupFormValidation: preventDefault, then inside
the animation-frame callback validate every input/textarea (the forEach runs
validateField on each field and clears the accumulated flag on any failure),
and only if all fields passed call submitForm once with
Object.fromEntries(new FormData(form)), the mapping of field names to
values. -/
def submitHandler (fields : List FieldData) : SubmitOutcome :=
  let validated := fields.map fieldValid
  let isValid := validated.all (fun b => b)
  { validated := validated
    submitCalls := if isValid then 1 else 0
    submitArg := if isValid then some (fields.map (fun f => (f.name, f.value))) else none }

/-- Header state as touched by setupHeaderScroll: the two classes on the
header element and the lastScroll variable of the closure. -/
structure HeaderState where
  hidden : Bool
  scrolled : Bool
  lastScroll : Int
  deriving DecidableEq, Repr

/-- One evaluation of the animation-frame callback of setupHeaderScroll at
scroll position currentScroll: at or below 0 both classes are removed;
otherwise header--hidden is added exactly when scrolling down past 100 and
removed otherwise, and header--scrolled is toggled on the condition
currentScroll > 50.  lastScroll is updated to currentScroll in every
branch. -/
def headerUpdate (st : HeaderState) (currentScroll : Int) : HeaderState :=
  if currentScroll ≤ 0 then
    { hidden := false, scrolled := false, lastScroll := currentScroll }
  else
    { hidden := decide (st.lastScroll < currentScroll) && decide ((100 : Int) < currentScroll)
      scrolled := decide ((50 : Int) < currentScroll)
      lastScroll := currentScroll }

/-- State of the scroll listener of setupHeaderScroll together with the
bookkeeping needed to observe its throttling behavior: the ticking flag, the
number of animation-frame callbacks currently scheduled and not yet run, the
number of style recomputations performed so far, and the header state. -/
structure ThrottleState where
  ticking : Bool
  scheduled : Nat
  recomputes : Nat
  header : HeaderState
  deriving DecidableEq, Repr

/-- One scroll event: when ticking is not set, requestAnimationFrame is
called (one more callback becomes scheduled) and ticking is set; otherwise
the event does nothing. -/
def scrollEvent (st : ThrottleState) : ThrottleState :=
  if st.ticking then st
  else { st with scheduled := st.scheduled + 1, ticking := true }

/-- The browser running one scheduled animation-frame callback: the callback
reads window.scrollY at that moment (the currentScroll argument), performs
one style recomputation via headerUpdate, and clears ticking.  With nothing
scheduled there is no callback to run. -/
def runFrame (st : ThrottleState) (currentScroll : Int) : ThrottleState :=
  if st.scheduled = 0 then st
  else { ticking := false
         scheduled := st.scheduled - 1
         recomputes := st.recomputes + 1
         header := headerUpdate st.header currentScroll }

/-- A sibling source element of a lazily loaded image: its data-srcset
marker and its active srcset. -/
structure SourceEl where
  dataSrcset : Option String
  srcset : Option String
  deriving DecidableEq, Repr

/-- An image element as the lazy-image controller sees it: the data-src
marker, the active src, the loaded class, and the sibling source elements of
its parent. -/
structure ImgEl where
  dataSrc : Option String
  src : Option String
  loadedClass : Bool
  sources : List SourceEl
  deriving DecidableEq, Repr

/-- Promotion of one sibling source inside the intersection callback: when
the data-srcset marker is present its value becomes the srcset and the
marker is deleted. -/
def loadSource (s : SourceEl) : SourceEl :=
  match s.dataSrcset with
  | some v => { dataSrcset := none, srcset := some v }
  | none => s

/-- The body of the intersection callback for one intersecting image:
promote every sibling source, then promote data-src to src and delete the
marker when present, and add the loaded class. -/
def loadImg (img : ImgEl) : ImgEl :=
  let withSources := { img with sources := img.sources.map loadSource }
  let withSrc :=
    match withSources.dataSrc with
    | some v => { withSources with src := some v, dataSrc := none }
    | none => withSources
  { withSrc with loadedClass := true }

/-- One image under the lazy-image controller: the element and whether the
IntersectionObserver is currently observing it. -/
structure LazyState where
  img : ImgEl
  observed : Bool
  deriving DecidableEq, Repr

/-- Delivery of one intersection entry for the element.  The observer only
produces entries for elements it still observes (after unobserve the browser
delivers nothing for the element), the callback skips entries that are not
intersecting, and an intersecting entry runs loadImg and unobserves the
element. -/
def intersectEvent (st : LazyState) (isIntersecting : Bool) : LazyState :=
  if !st.observed then st
  else if !isIntersecting then st
  else { img := loadImg st.img, observed := false }

/-- Process a sequence of intersection entries for the element, counting how
many of them actually fired the load transition (entries delivered while
observed and intersecting). -/
def processTrace (st : LazyState) : List Bool → LazyState × Nat
  | [] => (st, 0)
  | e :: es =>
    let fired := st.observed && e
    let r := processTrace (intersectEvent st e) es
    (r.1, (if fired then 1 else 0) + r.2)

/-- State touched by the mobile menu controller: the isMenuOpen closure
variable, the active classes on the nav list and on the toggle button, and
document.body.style.overflow. -/
structure MenuState where
  isMenuOpen : Bool
  navListActive : Bool
  btnActive : Bool
  bodyOverflow : String
  deriving DecidableEq, Repr

/-- Result of the closest('.nav__mobile-btn, .nav__link') ancestor match in
the delegated click handler: the toggle button, a nav link, or neither. -/
inductive ClickTarget where
  | mobileBtn
  | navLink
  | outside
  deriving DecidableEq, Repr

/-- The delegated click handler of setupMobileMenu.  A click outside both
selectors returns immediately.  A click on the toggle flips isMenuOpen,
toggles both active classes and sets the body overflow lock from the new
isMenuOpen.  A click on a nav link closes the menu — but only when
window.innerWidth < 768; on wider viewports it does nothing. -/
def navClick (st : MenuState) (target : ClickTarget) (innerWidth : Nat) : MenuState :=
  match target with
  | ClickTarget.outside => st
  | ClickTarget.mobileBtn =>
    let nowOpen := !st.isMenuOpen
    { isMenuOpen := nowOpen
      navListActive := !st.navListActive
      btnActive := !st.btnActive
      bodyOverflow := if nowOpen then "hidden" else "" }
  | ClickTarget.navLink =>
    if innerWidth < 768 then
      { isMenuOpen := false, navListActive := false, btnActive := false, bodyOverflow := "" }
    else st

/-- True when the string starts with the hash character, as
href.startsWith('#') tests in setupSmoothScroll. -/
def startsWithHash (s : String) : Bool :=
  match s.toList with
  | [] => false
  | c :: _ => c == '#'

/-- Observable outcome of one smooth-scroll click: whether preventDefault
was called and the scroll position requested from window.scrollTo, if
any. -/
structure ClickResult where
  prevented : Bool
  scrollTo : Option Int
  deriving DecidableEq, Repr

/-- The per-link click handler of setupSmoothScroll.  href is the value of
link.getAttribute('href'): none models the null returned for a link without
the attribute, and calling startsWith on null raises a TypeError, modelled
by the error case.  querySel models document.querySelector applied to the
href string as a selector: it returns the offsetTop of the first matching
element, none when no element matches, or an error for the SyntaxError the
platform raises on an invalid selector (such as a bare "#").  The handler
catches nothing, so a querySelector error propagates out of it. -/
def smoothScrollClick (href : Option String)
    (querySel : String → Except String (Option Int))
    (headerHeight : Int) : Except String ClickResult :=
  match href with
  | none => Except.error "TypeError"
  | some h =>
    if startsWithHash h then
      match querySel h with
      | Except.error e => Except.error e
      | Except.ok (some top) =>
        Except.ok { prevented := true, scrollTo := some (top - headerHeight) }
      | Except.ok none => Except.ok { prevented := true, scrollTo := none }
    else
      Except.ok { prevented := false, scrollTo := none }

/-! Helper lemmas shared by the claim theorems. -/

theorem intersectEvent_unobserved (st : LazyState) (e : Bool) (h : st.observed = false) :
    intersectEvent st e = st := by
  simp [intersectEvent, h]

theorem processTrace_unobserved (es : List Bool) : ∀ st : LazyState, st.observed = false →
    processTrace st es = (st, 0) := by
  induction es with
  | nil => intro st _; rfl
  | cons e es ih =>
    intro st h
    simp [processTrace, intersectEvent_unobserved st e h, h, ih st h]

theorem processTrace_count_le_one (es : List Bool) : ∀ st : LazyState,
    (processTrace st es).2 ≤ 1 := by
  induction es with
  | nil => intro st; simp [processTrace]
  | cons e es ih =>
    intro st
    cases hf : (st.observed && e) with
    | false => simpa [processTrace, hf] using ih (intersectEvent st e)
    | true =>
      have hboth : st.observed = true ∧ e = true := by simpa using hf
      have hobs : st.observed = true := hboth.1
      have he : e = true := hboth.2
      have hrest : processTrace (intersectEvent st e) es = (intersectEvent st e, 0) := by
        apply processTrace_unobserved
        simp [intersectEvent, hobs, he]
      simp [processTrace, hf, hrest]

theorem scrollEvent_ticking (st : ThrottleState) (h : st.ticking = true) :
    scrollEvent st = st := by
  simp [scrollEvent, h]

theorem iterate_scrollEvent_ticking : ∀ (k : Nat) (st : ThrottleState), st.ticking = true →
    scrollEvent^[k] st = st := by
  intro k
  induction k with
  | zero => intro st _; rfl
  | succ k ih =>
    intro st h
    rw [Function.iterate_succ_apply, scrollEvent_ticking st h, ih st h]

/-! Claim theorems. -/

/-- C2: evaluating the header-scroll callback over the scroll positions 0,
150, 200 from lastScroll 0 with no classes ends with both header--hidden and
header--scrolled present; over 200, 0 it ends with both absent; and at any
position at or below 0 both classes are removed whatever the previous
state. -/
theorem header_scroll_state_sequences :
    List.foldl headerUpdate { hidden := false, scrolled := false, lastScroll := 0 } [0, 150, 200] =
      { hidden := true, scrolled := true, lastScroll := 200 } ∧
    List.foldl headerUpdate { hidden := false, scrolled := false, lastScroll := 0 } [200, 0] =
      { hidden := false, scrolled := false, lastScroll := 0 } ∧
    ∀ (st : HeaderState) (pos : Int), pos ≤ 0 →
      headerUpdate st pos = { hidden := false, scrolled := false, lastScroll := pos } := by
  refine ⟨by decide, by decide, ?_⟩
  intro st pos h
  simp [headerUpdate, h]

/-- Witness for C2 at a concrete downward-scrolled state and position -3. -/
theorem header_scroll_state_sequences_witness :
    headerUpdate { hidden := true, scrolled := true, lastScroll := 5 } (-3) =
      { hidden := false, scrolled := false, lastScroll := -3 } :=
  header_scroll_state_sequences.2.2 _ _ (by decide)

/-- C7: a click on a nav link leaves the menu state unchanged when the
viewport is at least 768 pixels wide, and force-closes the menu (active
classes removed, overflow lock cleared, isMenuOpen reset) when it is
narrower. -/
theorem nav_link_click_viewport (st : MenuState) (w : Nat) :
    (768 ≤ w → navClick st ClickTarget.navLink w = st) ∧
    (w < 768 → navClick st ClickTarget.navLink w =
      { isMenuOpen := false, navListActive := false, btnActive := false, bodyOverflow := "" }) := by
  constructor
  · intro h
    simp [navClick, Nat.not_lt.mpr h]
  · intro h
    simp [navClick, h]

/-- Witness for C7: an open menu survives a link click at width 1024 and is
closed by one at width 375. -/
theorem nav_link_click_viewport_witness :
    navClick ⟨true, true, true, "hidden"⟩ ClickTarget.navLink 1024 =
      { isMenuOpen := true, navListActive := true, btnActive := true, bodyOverflow := "hidden" } ∧
    navClick ⟨true, true, true, "hidden"⟩ ClickTarget.navLink 375 =
      { isMenuOpen := false, navListActive := false, btnActive := false, bodyOverflow := "" } :=
  ⟨(nav_link_click_viewport _ _).1 (by decide), (nav_link_click_viewport _ _).2 (by decide)⟩

/-- C9: a click on a link whose href starts with the hash character but
whose selector matches no element is handled with preventDefault, requests
no scroll, and raises no error. -/
theorem missing_scroll_target_noop (h : String)
    (querySel : String → Except String (Option Int)) (headerHeight : Int)
    (hHash : startsWithHash h = true) (hMiss : querySel h = Except.ok none) :
    smoothScrollClick (some h) querySel headerHeight =
      Except.ok { prevented := true, scrollTo := none } := by
  simp [smoothScrollClick, hHash, hMiss]

/-- Witness for C9 at the selector "#contact" with no matching element. -/
theorem missing_scroll_target_noop_witness :
    smoothScrollClick (some "#contact") (fun _ => Except.ok none) 80 =
      Except.ok { prevented := true, scrollTo := none } :=
  missing_scroll_target_noop "#contact" (fun _ => Except.ok none) 80 (by decide) rfl

/-- C10 counterexample: a click delivered to the smooth-scroll handler on a
link with no href attribute raises a TypeError (getAttribute returns null
and startsWith is invoked on it); and a click on a link with href "#"
propagates the SyntaxError that document.querySelector raises for that
invalid selector.  Either run refutes the claim that no installed handler
ever raises an exception and that every failure is a silent no-op. -/
theorem missing_href_raises :
    smoothScrollClick none (fun _ => Except.ok none) 80 = Except.error "TypeError" ∧
    smoothScrollClick (some "#")
        (fun s => if s = "#" then Except.error "SyntaxError" else Except.ok none) 80 =
      Except.error "SyntaxError" :=
  ⟨rfl, rfl⟩

/-- C10 amended: failures in the guarded paths are silent no-ops — a click
on a link whose href does not start with the hash character is ignored
without error, and a hash href whose lookup completes normally never raises
(it merely scrolls nothing when no element matches) — but two failure modes
do raise: a link without an href attribute raises a TypeError, and an error
thrown by document.querySelector on the href selector propagates uncaught
out of the handler. -/
theorem smooth_scroll_failure_modes (querySel : String → Except String (Option Int))
    (headerHeight : Int) :
    (smoothScrollClick none querySel headerHeight = Except.error "TypeError") ∧
    (∀ h, startsWithHash h = false →
      smoothScrollClick (some h) querySel headerHeight =
        Except.ok { prevented := false, scrollTo := none }) ∧
    (∀ h v, startsWithHash h = true → querySel h = Except.ok v →
      ∃ res, smoothScrollClick (some h) querySel headerHeight = Except.ok res ∧
        res.prevented = true) ∧
    (∀ h e, startsWithHash h = true → querySel h = Except.error e →
      smoothScrollClick (some h) querySel headerHeight = Except.error e) := by
  refine ⟨rfl, ?_, ?_, ?_⟩
  · intro h hh
    simp [smoothScrollClick, hh]
  · intro h v hh hq
    cases v with
    | none =>
      exact ⟨{ prevented := true, scrollTo := none },
        by simp [smoothScrollClick, hh, hq], rfl⟩
    | some top =>
      exact ⟨{ prevented := true, scrollTo := some (top - headerHeight) },
        by simp [smoothScrollClick, hh, hq], rfl⟩
  · intro h e hh hq
    simp [smoothScrollClick, hh, hq]

/-- Witness for C10 amended at a concrete document in which only the
selector "#" is invalid: a missing href raises the TypeError, an external
link is ignored silently, "#contact" without a match is prevented with no
scroll, and the SyntaxError of the bare "#" selector propagates. -/
theorem smooth_scroll_failure_modes_witness :
    (smoothScrollClick none
        (fun s => if s = "#" then Except.error "SyntaxError" else Except.ok none) 80 =
      Except.error "TypeError") ∧
    (smoothScrollClick (some "https://example.com")
        (fun s => if s = "#" then Except.error "SyntaxError" else Except.ok none) 80 =
      Except.ok { prevented := false, scrollTo := none }) ∧
    (∃ res, smoothScrollClick (some "#contact")
        (fun s => if s = "#" then Except.error "SyntaxError" else Except.ok none) 80 =
      Except.ok res ∧ res.prevented = true) ∧
    (smoothScrollClick (some "#")
        (fun s => if s = "#" then Except.error "SyntaxError" else Except.ok none) 80 =
      Except.error "SyntaxError") :=
  ⟨(smooth_scroll_failure_modes _ 80).1,
   (smooth_scroll_failure_modes _ 80).2.1 "https://example.com" (by decide),
   (smooth_scroll_failure_modes _ 80).2.2.1 "#contact" none (by decide) rfl,
   (smooth_scroll_failure_modes _ 80).2.2.2 "#" "SyntaxError" (by decide) rfl⟩

/-- C3: over any sequence of intersection entries an image fires its load
transition at most once; the first intersection while observed unobserves
the element and deletes its data-src marker, and any later entry leaves the
state unchanged, so loading is never re-triggered. -/
theorem lazy_load_at_most_once :
    (∀ (st : LazyState) (es : List Bool), (processTrace st es).2 ≤ 1) ∧
    (∀ img : ImgEl, (intersectEvent { img := img, observed := true } true).observed = false) ∧
    (∀ img : ImgEl, (intersectEvent { img := img, observed := true } true).img.dataSrc = none) ∧
    (∀ (img : ImgEl) (e : Bool),
      intersectEvent (intersectEvent { img := img, observed := true } true) e =
        intersectEvent { img := img, observed := true } true) := by
  refine ⟨fun st es => processTrace_count_le_one es st, ?_, ?_, ?_⟩
  · intro img
    simp [intersectEvent]
  · intro img
    cases h : img.dataSrc <;> simp [intersectEvent, loadImg, h]
  · intro img e
    apply intersectEvent_unobserved
    simp [intersectEvent]

/-- C8: any number n of scroll events arriving while no frame is pending
schedule exactly one animation-frame callback and no recomputation; running
that callback performs exactly one style recomputation, reading the scroll
position given at callback time. -/
theorem scroll_throttle_single_frame (st : ThrottleState) (n : Nat) (pos : Int)
    (hTick : st.ticking = false) (hSched : st.scheduled = 0) (hn : 1 ≤ n) :
    (scrollEvent^[n] st).scheduled = 1 ∧
    (scrollEvent^[n] st).recomputes = st.recomputes ∧
    runFrame (scrollEvent^[n] st) pos =
      { ticking := false, scheduled := 0,
        recomputes := st.recomputes + 1,
        header := headerUpdate st.header pos } := by
  obtain ⟨t, sc, rc, hd⟩ := st
  simp only at hTick hSched
  subst hTick
  subst hSched
  obtain ⟨m, rfl⟩ : ∃ m, n = m + 1 := ⟨n - 1, (Nat.succ_pred_eq_of_pos hn).symm⟩
  have h1 : scrollEvent ⟨false, 0, rc, hd⟩ = ⟨true, 1, rc, hd⟩ := by
    simp [scrollEvent]
  have h2 : scrollEvent^[m + 1] (⟨false, 0, rc, hd⟩ : ThrottleState) = ⟨true, 1, rc, hd⟩ := by
    rw [Function.iterate_succ_apply, h1]
    exact iterate_scrollEvent_ticking m _ rfl
  rw [h2]
  exact ⟨rfl, rfl, by simp [runFrame]⟩

/-- Witness for C8: three scroll events from the idle initial state schedule
one callback, and running it at position 150 recomputes once. -/
theorem scroll_throttle_single_frame_witness :
    (scrollEvent^[3] (⟨false, 0, 0, ⟨false, false, 0⟩⟩ : ThrottleState)).scheduled = 1 ∧
    (scrollEvent^[3] (⟨false, 0, 0, ⟨false, false, 0⟩⟩ : ThrottleState)).recomputes = 0 ∧
    runFrame (scrollEvent^[3] (⟨false, 0, 0, ⟨false, false, 0⟩⟩ : ThrottleState)) 150 =
      { ticking := false, scheduled := 0, recomputes := 0 + 1,
        header := headerUpdate ⟨false, false, 0⟩ 150 } :=
  scroll_throttle_single_frame ⟨false, 0, 0, ⟨false, false, 0⟩⟩ 3 150 rfl rfl (by decide)

/-- C1: the submit handler validates every field (the recorded validation
results are exactly the per-field validities, in order, never
short-circuited); when some field is invalid the external submitForm
collaborator is not invoked; when all fields are valid it is invoked exactly
once with a key-value mapping containing every field's current value. -/
theorem submit_all_or_nothing (fields : List FieldData) :
    (submitHandler fields).validated = fields.map fieldValid ∧
    ((∃ f ∈ fields, fieldValid f = false) →
      (submitHandler fields).submitCalls = 0 ∧ (submitHandler fields).submitArg = none) ∧
    ((∀ f ∈ fields, fieldValid f = true) →
      (submitHandler fields).submitCalls = 1 ∧
      ∃ m, (submitHandler fields).submitArg = some m ∧
        ∀ f ∈ fields, (f.name, f.value) ∈ m) := by
  refine ⟨rfl, ?_, ?_⟩
  · rintro ⟨f, hf, hval⟩
    have hall : (fields.map fieldValid).all (fun b => b) = false := by
      cases h : (fields.map fieldValid).all (fun b => b) with
      | false => rfl
      | true =>
        have hmem : fieldValid f ∈ fields.map fieldValid := List.mem_map_of_mem _ hf
        have := List.all_eq_true.mp h (fieldValid f) hmem
        rw [hval] at this
        exact absurd this (by decide)
    constructor <;> simp [submitHandler, hall]
  · intro hv
    have hall : (fields.map fieldValid).all (fun b => b) = true := by
      apply List.all_eq_true.mpr
      intro b hb
      rcases List.mem_map.mp hb with ⟨f, hf, rfl⟩
      exact hv f hf
    refine ⟨by simp [submitHandler, hall],
      fields.map (fun f => (f.name, f.value)), by simp [submitHandler, hall], ?_⟩
    intro f hf
    exact List.mem_map_of_mem _ hf

/-- Witness for C1: a form whose email field is invalid never reaches
submitForm, and a fully valid form reaches it once with both name-value
pairs present. -/
theorem submit_all_or_nothing_witness :
    ((submitHandler [⟨"email", "not-an-email", "email", none⟩]).submitCalls = 0 ∧
      (submitHandler [⟨"email", "not-an-email", "email", none⟩]).submitArg = none) ∧
    ((submitHandler [⟨"email", "a@b.co", "email", none⟩,
        ⟨"message", "hello there", "textarea", some 5⟩]).submitCalls = 1 ∧
      ∃ m, (submitHandler [⟨"email", "a@b.co", "email", none⟩,
          ⟨"message", "hello there", "textarea", some 5⟩]).submitArg = some m ∧
        ∀ f ∈ [(⟨"email", "a@b.co", "email", none⟩ : FieldData),
            ⟨"message", "hello there", "textarea", some 5⟩], (f.name, f.value) ∈ m) :=
  ⟨(submit_all_or_nothing _).2.1 ⟨⟨"email", "not-an-email", "email", none⟩, by decide, by decide⟩,
   (submit_all_or_nothing _).2.2 (by decide)⟩

/-- C5: for a non-email field validity holds exactly when the trimmed
value's length reaches the effective minimum from data-min-length (default 0
when absent); with minimum 5 the value "abcd" fails and renders the exact
message "Minimum 5 characters required", while "abcde" passes. -/
theorem min_length_validation :
    (∀ f : FieldData, f.fieldType ≠ "email" →
      ((validateRule f).1 = true ↔ effMinLength f ≤ utf16Length (jsTrim f.value))) ∧
    (validateRule ⟨"message", "abcd", "text", some 5⟩).1 = false ∧
    (validateFieldDOM ⟨⟨"message", "abcd", "text", some 5⟩, false, [], []⟩).1.after =
      [SiblingNode.errSpan "Minimum 5 characters required"] ∧
    (validateRule ⟨"message", "abcde", "text", some 5⟩).1 = true := by
  refine ⟨?_, by decide, by decide, by decide⟩
  intro f hf
  simp [validateRule, hf]

/-- Witness for C5: the length criterion instantiated at a textarea with
minimum 5 and the value " abcde " whose trimmed length is 5. -/
theorem min_length_validation_witness :
    (validateRule ⟨"message", " abcde ", "textarea", some 5⟩).1 = true ↔
      effMinLength ⟨"message", " abcde ", "textarea", some 5⟩ ≤
        utf16Length (jsTrim (FieldData.value ⟨"message", " abcde ", "textarea", some 5⟩)) :=
  min_length_validation.1 _ (by decide)

/-- C6 counterexample: validating an invalid field whose parent holds a
further node after the field appends the fresh error-message element after
that node, as the parent's last child — not immediately after the field, so
the created element is not the field's next sibling. -/
theorem error_span_not_next_sibling :
    (validateFieldDOM ⟨⟨"message", "abcd", "text", some 5⟩, false, [],
        [SiblingNode.otherNode 0]⟩).1.after =
      [SiblingNode.otherNode 0, SiblingNode.errSpan "Minimum 5 characters required"] ∧
    (validateFieldDOM ⟨⟨"message", "abcd", "text", some 5⟩, false, [],
        [SiblingNode.otherNode 0]⟩).1.after.head? ≠
      some (SiblingNode.errSpan "Minimum 5 characters required") := by
  decide

/-- C6 amended: for every invalid field validateField adds the error class
to the field and appends a freshly created error-message element carrying
the computed error text as the last child of the field's parent (which
coincides with the next-sibling position only when the field was the last
child). -/
theorem error_span_appended_last (ctx : FieldContext)
    (h : (validateFieldDOM ctx).2 = false) :
    (validateFieldDOM ctx).1.hasErrorClass = true ∧
    ∃ pre, (validateFieldDOM ctx).1.after =
      pre ++ [SiblingNode.errSpan (validateRule ctx.field).2] := by
  cases hr : (validateRule ctx.field).1 with
  | true =>
    exfalso
    simp [validateFieldDOM, hr] at h
  | false =>
    refine ⟨by simp [validateFieldDOM, hr], ?_, ?_⟩
    · exact if (removeFirstErr ctx.before).2 then ctx.after else (removeFirstErr ctx.after).1
    · simp [validateFieldDOM, hr]

/-- Witness for C6 amended, at the counterexample context: the error class
is set and the message span sits at the end of the sibling list. -/
theorem error_span_appended_last_witness :
    (validateFieldDOM ⟨⟨"message", "abcd", "text", some 5⟩, false, [],
        [SiblingNode.otherNode 0]⟩).1.hasErrorClass = true ∧
    ∃ pre, (validateFieldDOM ⟨⟨"message", "abcd", "text", some 5⟩, false, [],
        [SiblingNode.otherNode 0]⟩).1.after =
      pre ++ [SiblingNode.errSpan (validateRule (FieldContext.field
        ⟨⟨"message", "abcd", "text", some 5⟩, false, [],
          [SiblingNode.otherNode 0]⟩)).2] :=
  error_span_appended_last _ (by decide)

/-! Lemmas about the email regexp model. -/

theorem splitAtSign_cons (c : Char) (rest : List Char) :
    splitAtSign (c :: rest) =
      if c = '@' then some ([], rest)
      else (splitAtSign rest).map (fun p => (c :: p.1, p.2)) := rfl

theorem splitAtSign_sound : ∀ (cs l d : List Char), splitAtSign cs = some (l, d) →
    cs = l ++ '@' :: d ∧ '@' ∉ l := by
  intro cs
  induction cs with
  | nil =>
    intro l d h
    exact Option.noConfusion h
  | cons c rest ih =>
    intro l d h
    rw [splitAtSign_cons] at h
    by_cases hc : c = '@'
    · rw [if_pos hc] at h
      injection h with h2
      injection h2 with hl hd
      subst hc
      subst hd
      rw [← hl]
      exact ⟨rfl, by simp⟩
    · rw [if_neg hc] at h
      rcases Option.map_eq_some'.mp h with ⟨⟨l1, d1⟩, hsp, heq⟩
      injection heq with h1 h2
      subst h2
      obtain ⟨hdec, hnot⟩ := ih l1 d1 hsp
      rw [← h1]
      constructor
      · rw [hdec]
        rfl
      · intro hm
        rcases List.mem_cons.mp hm with h3 | h3
        · exact hc h3.symm
        · exact hnot h3

theorem splitAtSign_complete : ∀ (l d : List Char), '@' ∉ l →
    splitAtSign (l ++ '@' :: d) = some (l, d) := by
  intro l
  induction l with
  | nil =>
    intro d _
    rw [List.nil_append, splitAtSign_cons, if_pos rfl]
  | cons c l1 ih =>
    intro d h
    have hc : c ≠ '@' := by
      intro hh
      subst hh
      exact h (List.mem_cons_self _ _)
    rw [List.cons_append, splitAtSign_cons, if_neg hc,
        ih d (fun hm => h (List.mem_cons_of_mem c hm))]
    rfl

theorem dotNotLast_cons (c : Char) (cs : List Char) :
    dotNotLast (c :: cs) = ((decide (c = '.') && !cs.isEmpty) || dotNotLast cs) := rfl

theorem dotNotLast_iff : ∀ cs : List Char,
    dotNotLast cs = true ↔ ∃ x y, cs = x ++ '.' :: y ∧ y ≠ [] := by
  intro cs
  induction cs with
  | nil =>
    constructor
    · intro h
      exact Bool.noConfusion h
    · rintro ⟨x, y, hxy, -⟩
      cases x <;> simp at hxy
  | cons c cs ih =>
    constructor
    · intro h
      rw [dotNotLast_cons] at h
      have h2 : (c = '.' ∧ cs.isEmpty = false) ∨ dotNotLast cs = true := by
        simpa [Bool.and_eq_true, Bool.not_eq_true'] using h
      rcases h2 with ⟨hc, hne⟩ | h3
      · subst hc
        refine ⟨[], cs, rfl, ?_⟩
        intro hnil
        rw [hnil] at hne
        exact Bool.noConfusion hne
      · rcases ih.mp h3 with ⟨x, y, hxy, hy⟩
        subst hxy
        exact ⟨c :: x, y, rfl, hy⟩
    · rintro ⟨x, y, hxy, hy⟩
      cases x with
      | nil =>
        injection hxy with h1 h2
        subst h1
        subst h2
        rw [dotNotLast_cons]
        have hne : cs.isEmpty = false := by
          cases hcs : cs
          · rw [hcs] at hy
            exact absurd rfl hy
          · rfl
        simp [hne]
      | cons a x1 =>
        rw [List.cons_append] at hxy
        injection hxy with h1 h2
        subst h2
        rw [dotNotLast_cons]
        have h3 : dotNotLast (x1 ++ '.' :: y) = true := ih.mpr ⟨x1, y, rfl, hy⟩
        simp [h3]

theorem emailValid_iff_shape (s : String) : emailValid s = true ↔ specEmailShape s := by
  unfold emailValid emailValidChars
  cases hsp : splitAtSign s.toList with
  | none =>
    simp only [Bool.false_eq_true, false_iff]
    rintro ⟨l, d1, d2, heq, -, hlok, -, -, -, -⟩
    have hnotin : '@' ∉ l := by
      intro hm
      have h1 := List.all_eq_true.mp hlok '@' hm
      simp [okChar] at h1
    have h2 := splitAtSign_complete l (d1 ++ '.' :: d2) hnotin
    rw [heq, h2] at hsp
    exact Option.noConfusion hsp
  | some p =>
    obtain ⟨l, d⟩ := p
    obtain ⟨hdecomp, hnotin⟩ := splitAtSign_sound s.toList l d hsp
    constructor
    · intro h
      have h4 : !l.isEmpty = true ∧ l.all (fun c => !isJsWs c) = true ∧
          d.all okChar = true ∧ dotInterior d = true := by
        simpa [Bool.and_eq_true, and_assoc] using h
      obtain ⟨hne, hws, hdall, hdot⟩ := h4
      cases d with
      | nil => exact Bool.noConfusion hdot
      | cons c0 dtail =>
        have hdnl : dotNotLast dtail = true := hdot
        rcases (dotNotLast_iff dtail).mp hdnl with ⟨x, y, hxy, hy⟩
        subst hxy
        have hsplitall : okChar c0 = true ∧ x.all okChar = true ∧
            okChar '.' = true ∧ y.all okChar = true := by
          simpa [List.all_cons, List.all_append, Bool.and_eq_true, and_assoc] using hdall
        refine ⟨l, c0 :: x, y, ?_, ?_, ?_, List.cons_ne_nil _ _, ?_, hy, hsplitall.2.2.2⟩
        · rw [hdecomp]
          simp
        · intro hl
          rw [hl] at hne
          exact Bool.noConfusion hne
        · apply List.all_eq_true.mpr
          intro c hc
          have h5 := List.all_eq_true.mp hws c hc
          have h6 : c ≠ '@' := fun hh => hnotin (hh ▸ hc)
          simp only [okChar, Bool.and_eq_true]
          exact ⟨h5, by simpa using h6⟩
        · simp only [List.all_cons, Bool.and_eq_true]
          exact ⟨hsplitall.1, hsplitall.2.1⟩
    · rintro ⟨l0, d1, d2, heq, hl0, hl0ok, hd1, hd1ok, hd2, hd2ok⟩
      have hnotin0 : '@' ∉ l0 := by
        intro hm
        have h1 := List.all_eq_true.mp hl0ok '@' hm
        simp [okChar] at h1
      have hcomp := splitAtSign_complete l0 (d1 ++ '.' :: d2) hnotin0
      rw [heq, hcomp] at hsp
      injection hsp with hpair
      injection hpair with hl hd
      subst hl
      subst hd
      have hne : l0.isEmpty = false := by
        cases hl0c : l0
        · rw [hl0c] at hl0
          exact absurd rfl hl0
        · rfl
      have hws : l0.all (fun c => !isJsWs c) = true := by
        apply List.all_eq_true.mpr
        intro c hc
        have h1 := List.all_eq_true.mp hl0ok c hc
        have h2 : (!isJsWs c && decide (c ≠ '@')) = true := h1
        exact (Bool.and_eq_true _ _ ▸ h2).1
      have hdall : (d1 ++ '.' :: d2).all okChar = true := by
        simp only [List.all_append, List.all_cons, Bool.and_eq_true]
        exact ⟨hd1ok, by decide, hd2ok⟩
      have hdot : dotInterior (d1 ++ '.' :: d2) = true := by
        cases d1 with
        | nil => exact absurd rfl hd1
        | cons a d1t =>
          show dotNotLast (d1t ++ '.' :: d2) = true
          exact (dotNotLast_iff _).mpr ⟨d1t, d2, rfl, hd2⟩
      simp [hne, hws, hdall, hdot]

theorem specEmailShape_head_ws (s : String) (c : Char) (rest : List Char)
    (hs : s.toList = c :: rest) (hws : isJsWs c = true) : ¬ specEmailShape s := by
  rintro ⟨l, d1, d2, heq, hl, hlok, -, -, -, -⟩
  rw [hs] at heq
  cases l with
  | nil => exact hl rfl
  | cons a l1 =>
    rw [List.cons_append] at heq
    injection heq with h1 h2
    subst h1
    have h3 : okChar c = true ∧ l1.all okChar = true := by
      simpa [List.all_cons, Bool.and_eq_true] using hlok
    have h4 := h3.1
    simp [okChar, hws] at h4

/-- C4 counterexample: the email field with value " a@b.co" validates true
although that value does not match the local-at-domain-dot pattern (its
local part would start with whitespace), because validateField tests the
trimmed value, not the value itself. -/
theorem email_trim_counterexample :
    (validateRule ⟨"email", " a@b.co", "email", none⟩).1 = true ∧
    ¬ specEmailShape " a@b.co" := by
  refine ⟨by decide, ?_⟩
  exact specEmailShape_head_ws " a@b.co" ' ' "a@b.co".toList (by decide) (by decide)

/-- C4 amended: "a@b.co" validates true; "not-an-email" validates false and
renders an error message containing "valid email"; and in general email
validity holds iff the trimmed value matches the
local-at-domain-dot-shaped pattern (nonempty whitespace-free local part,
exactly one at-sign, a dot-separated domain). -/
theorem email_validation_amended :
    (validateRule ⟨"email", "a@b.co", "email", none⟩).1 = true ∧
    (validateRule ⟨"email", "not-an-email", "email", none⟩).1 = false ∧
    (validateFieldDOM ⟨⟨"email", "not-an-email", "email", none⟩, false, [], []⟩).1.after =
      [SiblingNode.errSpan "Please enter a valid email"] ∧
    (∃ pre post, "Please enter a valid email" = pre ++ "valid email" ++ post) ∧
    (∀ f : FieldData, f.fieldType = "email" →
      ((validateRule f).1 = true ↔ specEmailShape (jsTrim f.value))) := by
  refine ⟨by decide, by decide, by decide, ⟨"Please enter a ", "", by decide⟩, ?_⟩
  intro f hf
  have hr : (validateRule f).1 = emailValid (jsTrim f.value) := by
    simp [validateRule, hf]
  rw [hr]
  exact emailValid_iff_shape (jsTrim f.value)

/-- Witness for C4 amended: the trimmed-value equivalence instantiated at an
email field whose raw value carries surrounding whitespace. -/
theorem email_validation_amended_witness :
    (validateRule ⟨"email", " a@b.co ", "email", none⟩).1 = true ↔
      specEmailShape (jsTrim (FieldData.value ⟨"email", " a@b.co ", "email", none⟩)) :=
  email_validation_amended.2.2.2.2 _ rfl

end Portfolio
